import Mathlib

/-!
Verification of the PMS web-app channel manager and direct booking engine.

The Python sources are shallowly embedded: every definition below mirrors a
function of the repository (`backend-api-routes.py`, `rate-limiter.py`,
`circuit-breaker.py`, `webhook-handlers.py`, `sync-engine.py`).  Money is
modelled by `ℚ` (Python `Decimal` arithmetic on the values used here is
exact), dates by `ℤ` day numbers, and database tables by lists of rows.
-/

namespace PMS

/-! ## SHA-256 (embedding of `hashlib.sha256(...).hexdigest()`) -/

def M32 : ℕ := 4294967296

def rotr (n x : ℕ) : ℕ := ((x >>> n) ||| (x <<< (32 - n))) % M32

def shaK : Array ℕ := #[
  1116352408, 1899447441, 3049323471, 3921009573, 961987163,
  1508970993, 2453635748, 2870763221, 3624381080, 310598401,
  607225278, 1426881987, 1925078388, 2162078206, 2614888103,
  3248222580, 3835390401, 4022224774, 264347078, 604807628,
  770255983, 1249150122, 1555081692, 1996064986, 2554220882,
  2821834349, 2952996808, 3210313671, 3336571891, 3584528711,
  113926993, 338241895, 666307205, 773529912, 1294757372,
  1396182291, 1695183700, 1986661051, 2177026350, 2456956037,
  2730485921, 2820302411, 3259730800, 3345764771, 3516065817,
  3600352804, 4094571909, 275423344, 430227734, 506948616,
  659060556, 883997877, 958139571, 1322822218, 1537002063,
  1747873779, 1955562222, 2024104815, 2227730452, 2361852424,
  2428436474, 2756734187, 3204031479, 3329325298]

def shaH0 : Array ℕ := #[
  1779033703, 3144134277, 1013904242, 2773480762, 1359893119,
  2600822924, 528734635, 1541459225]

def strBytes (s : String) : List ℕ := s.data.map Char.toNat

def lenBytes (bitLen : ℕ) : List ℕ :=
  (List.range 8).map (fun i => (bitLen >>> (8 * (7 - i))) % 256)

def padMessage (msg : List ℕ) : List ℕ :=
  let padZeros := (119 - (msg.length % 64)) % 64
  msg ++ [128] ++ List.replicate padZeros 0 ++ lenBytes (msg.length * 8)

def chunksGo : ℕ → List ℕ → List (List ℕ)
  | 0, _ => []
  | _ + 1, [] => []
  | n + 1, l => l.take 64 :: chunksGo n (l.drop 64)

def chunks64 (l : List ℕ) : List (List ℕ) := chunksGo l.length l

def wordsOfBlock (block : List ℕ) : Array ℕ :=
  ((List.range 16).map (fun i =>
    (block.getD (4 * i) 0) * 16777216 + (block.getD (4 * i + 1) 0) * 65536 +
    (block.getD (4 * i + 2) 0) * 256 + block.getD (4 * i + 3) 0)).toArray

def extendWords (w0 : Array ℕ) : Array ℕ :=
  (List.range 48).foldl (fun w i =>
    let j := i + 16
    let x15 := w.getD (j - 15) 0
    let x2 := w.getD (j - 2) 0
    let s0 := (rotr 7 x15) ^^^ (rotr 18 x15) ^^^ (x15 >>> 3)
    let s1 := (rotr 17 x2) ^^^ (rotr 19 x2) ^^^ (x2 >>> 10)
    w.push ((w.getD (j - 16) 0 + s0 + w.getD (j - 7) 0 + s1) % M32)) w0

def compressBlock (h : Array ℕ) (block : List ℕ) : Array ℕ :=
  let w := extendWords (wordsOfBlock block)
  let st := (List.range 64).foldl (fun (st : Array ℕ) i =>
    let a := st.getD 0 0
    let b := st.getD 1 0
    let c := st.getD 2 0
    let d := st.getD 3 0
    let e := st.getD 4 0
    let f := st.getD 5 0
    let g := st.getD 6 0
    let hh := st.getD 7 0
    let S1 := (rotr 6 e) ^^^ (rotr 11 e) ^^^ (rotr 25 e)
    let ch := (e &&& f) ^^^ ((e ^^^ (M32 - 1)) &&& g)
    let t1 := (hh + S1 + ch + shaK.getD i 0 + w.getD i 0) % M32
    let S0 := (rotr 2 a) ^^^ (rotr 13 a) ^^^ (rotr 22 a)
    let maj := (a &&& b) ^^^ (a &&& c) ^^^ (b &&& c)
    let t2 := (S0 + maj) % M32
    #[(t1 + t2) % M32, a, b, c, (d + t1) % M32, e, f, g]) h
  (Array.range 8).map (fun i => (h.getD i 0 + st.getD i 0) % M32)

def sha256Words (s : String) : Array ℕ :=
  (chunks64 (padMessage (strBytes s))).foldl compressBlock shaH0

def hexDigitChar (n : ℕ) : Char := "0123456789abcdef".data.getD n '0'

def toHex8 (x : ℕ) : String :=
  String.mk ((List.range 8).map (fun i => hexDigitChar ((x >>> (4 * (7 - i))) % 16)))

def sha256Hex (s : String) : String :=
  String.join (((sha256Words s).toList).map toHex8)

set_option maxRecDepth 20000 in
/-- Sanity anchor: the FIPS 180-2 test vector for the embedded SHA-256. -/
theorem sha256Hex_abc :
    sha256Hex "abc" =
      "ba7816bf8f01cfea414140de5dae2223b00361a396177a9cb410ff61f20015ad" := by
  decide

/-! ## Rounding to cents

`Decimal.quantize(Decimal("0.01"))` under Python's default context rounds
half-even; `roundHalfUpC` is the "half-up" rounding named by the spec. -/

def roundHalfEvenC (q : ℚ) : ℚ :=
  let c : ℚ := q * 100
  let n : ℤ := ⌊c⌋
  let frac : ℚ := c - n
  if frac < 1 / 2 then (n : ℚ) / 100
  else if 1 / 2 < frac then ((n : ℚ) + 1) / 100
  else if n % 2 = 0 then (n : ℚ) / 100 else ((n : ℚ) + 1) / 100

def roundHalfUpC (q : ℚ) : ℚ :=
  let c : ℚ := q * 100
  let n : ℤ := ⌊c⌋
  let frac : ℚ := c - n
  if frac < 1 / 2 then (n : ℚ) / 100 else ((n : ℚ) + 1) / 100

/-! ## Booking engine data model (`backend-api-routes.py`)

Dates are day numbers (`ℤ`), table rows are list entries.  `PropertyRec`
keeps the `Property` columns used by the embedded routes, `CalCell` the
`CalendarAvailability` columns. -/

structure PropertyRec where
  base_price : ℚ
  cleaning_fee : Option ℚ
  tax_rate : Option ℚ
  tax_included : Bool
  deriving Repr, DecidableEq

structure CalCell where
  property_id : ℕ
  date : ℤ
  available : Bool
  availability_status : String
  price : Option ℚ
  booking_id : Option ℕ
  deriving Repr, DecidableEq

/-- `[check_in + timedelta(days=i) for i in range((check_out - check_in).days)]` -/
def dateRange (check_in check_out : ℤ) : List ℤ :=
  (List.range (check_out - check_in).toNat).map (fun i => check_in + i)

/-- The calendar row for `(property_id, date)`; `UNIQUE(property_id, date)`
makes the first match the only match. -/
def calLookup (cal : List CalCell) (pid : ℕ) (d : ℤ) : Option CalCell :=
  cal.find? (fun c => c.property_id == pid && c.date == d)

/-- `price = calendar_day.price if calendar_day and calendar_day.price else
property.base_price` — note that `Decimal("0")` is falsy in Python, so a zero
price override falls back to the base price. -/
def nightlyPrice (p : PropertyRec) (cal : List CalCell) (pid : ℕ) (d : ℤ) : ℚ :=
  match calLookup cal pid d with
  | some c =>
      match c.price with
      | some pr => if pr = 0 then p.base_price else pr
      | none => p.base_price
  | none => p.base_price

structure PriceBreakdown where
  nightly_rates : List (ℤ × ℚ)
  subtotal : ℚ
  cleaning_fee : ℚ
  service_fee : ℚ
  taxes : ℚ
  total : ℚ
  deriving Repr, DecidableEq

/-- `service_fee = (subtotal + cleaning_fee) * SERVICE_FEE_PERCENTAGE` before
quantization (`SERVICE_FEE_PERCENTAGE = Decimal("0.05")`). -/
def rawServiceFee (subtotal cleaning : ℚ) : ℚ := (subtotal + cleaning) * (5 / 100)

/-- `taxes = (subtotal + cleaning_fee + service_fee) * (tax_rate / 100)` when
`property.tax_rate` is truthy and `tax_included` is false, else `Decimal("0")`;
the unquantized service fee feeds this product. -/
def rawTaxesOf (p : PropertyRec) (subtotal cleaning : ℚ) : ℚ :=
  match p.tax_rate with
  | some r =>
      if r ≠ 0 ∧ ¬p.tax_included then
        (subtotal + cleaning + rawServiceFee subtotal cleaning) * (r / 100)
      else 0
  | none => 0

/-- Embedding of `calculate_price_breakdown` (lines 769-834). -/
def calculate_price_breakdown (p : PropertyRec) (cal : List CalCell) (pid : ℕ)
    (check_in check_out : ℤ) : PriceBreakdown :=
  let range := dateRange check_in check_out
  let nightly := range.map (fun d => (d, nightlyPrice p cal pid d))
  let subtotal := (nightly.map Prod.snd).sum
  let cleaning := p.cleaning_fee.getD 0
  let service := rawServiceFee subtotal cleaning
  let taxes := rawTaxesOf p subtotal cleaning
  { nightly_rates := nightly
    subtotal := subtotal
    cleaning_fee := cleaning
    service_fee := roundHalfEvenC service
    taxes := roundHalfEvenC taxes
    total := roundHalfEvenC (subtotal + cleaning + service + taxes) }

/-- The claim's reading of §4.6.1, for comparison with the code: the override
is used even when it is 0, and the service fee is rounded half-up. -/
def specNightlyPrice (p : PropertyRec) (cal : List CalCell) (pid : ℕ) (d : ℤ) : ℚ :=
  match calLookup cal pid d with
  | some c => c.price.getD p.base_price
  | none => p.base_price

/-- The claim's reading of the whole breakdown (§4.6.1 as worded): override
always wins when present, `service_fee` rounded to cents half-up, `taxes`
computed from the named quantities, `total` their plain sum. -/
def spec_price_breakdown (p : PropertyRec) (cal : List CalCell) (pid : ℕ)
    (check_in check_out : ℤ) : PriceBreakdown :=
  let range := dateRange check_in check_out
  let nightly := range.map (fun d => (d, specNightlyPrice p cal pid d))
  let subtotal := (nightly.map Prod.snd).sum
  let cleaning := p.cleaning_fee.getD 0
  let service := roundHalfUpC ((subtotal + cleaning) * (5 / 100))
  let taxes :=
    if ¬p.tax_included then (subtotal + cleaning + service) * (p.tax_rate.getD 0 / 100)
    else 0
  { nightly_rates := nightly
    subtotal := subtotal
    cleaning_fee := cleaning
    service_fee := service
    taxes := taxes
    total := subtotal + cleaning + service + taxes }

def c7Property : PropertyRec :=
  { base_price := 5 / 2
    cleaning_fee := some 0
    tax_rate := none
    tax_included := false }

def c7Calendar : List CalCell :=
  [{ property_id := 1
     date := 0
     available := true
     availability_status := "available"
     price := some 0
     booking_id := none }]

def c7CellOverride : CalCell :=
  { property_id := 1
    date := 0
    available := true
    availability_status := "available"
    price := some 3
    booking_id := none }

/-- `2.50 * 0.05 = 0.125` quantizes half-even to `0.12`. -/
theorem roundHalfEvenC_eighth : roundHalfEvenC (1 / 8) = 12 / 100 := by
  have h : ⌊(1 / 8 : ℚ) * 100⌋ = 12 := Int.floor_eq_iff.mpr (by norm_num)
  simp only [roundHalfEvenC, h]
  norm_num

/-- `0.125` rounds half-up to `0.13`. -/
theorem roundHalfUpC_eighth : roundHalfUpC (1 / 8) = 13 / 100 := by
  have h : ⌊(1 / 8 : ℚ) * 100⌋ = 12 := Int.floor_eq_iff.mpr (by norm_num)
  simp only [roundHalfUpC, h]
  norm_num

/-- C7 counterexample: (a) a calendar price override of `0` is falsy in the
code and falls back to `base_price`, so the claimed breakdown (override used
even when 0) disagrees with the code on a one-night stay; (b) even with no
override at all, the code quantizes the service fee half-even
(`2.50 * 0.05 = 0.125 ↦ 0.12`) where the claim says half-up (`0.13`). -/
theorem C7_counterexample :
    calculate_price_breakdown c7Property c7Calendar 1 0 1 ≠
      spec_price_breakdown c7Property c7Calendar 1 0 1 ∧
    (calculate_price_breakdown c7Property [] 1 0 1).service_fee = 12 / 100 ∧
    (spec_price_breakdown c7Property [] 1 0 1).service_fee = 13 / 100 := by
  have hdr : dateRange 0 1 = [(0 : ℤ)] := rfl
  have hnp : nightlyPrice c7Property c7Calendar 1 0 = 5 / 2 := by
    simp [nightlyPrice, calLookup, c7Calendar, c7Property, List.find?]
  have hsp : specNightlyPrice c7Property c7Calendar 1 0 = 0 := by
    simp [specNightlyPrice, calLookup, c7Calendar, List.find?]
  have hnp2 : nightlyPrice c7Property [] 1 0 = 5 / 2 := by
    simp [nightlyPrice, calLookup, c7Property]
  have hsp2 : specNightlyPrice c7Property [] 1 0 = 5 / 2 := by
    simp [specNightlyPrice, calLookup, c7Property]
  have hraw : rawServiceFee (5 / 2 + 0) (c7Property.cleaning_fee.getD 0) = 1 / 8 := by
    simp [rawServiceFee, c7Property]
    norm_num
  have hraw2 : rawServiceFee (5 / 2) (c7Property.cleaning_fee.getD 0) = 1 / 8 := by
    simp only [rawServiceFee, c7Property, Option.getD_some]
    norm_num
  refine ⟨?_, ?_, ?_⟩
  · intro h
    have hc : (calculate_price_breakdown c7Property c7Calendar 1 0 1).subtotal = 5 / 2 := by
      simp [calculate_price_breakdown, hdr, hnp]
    have hs : (spec_price_breakdown c7Property c7Calendar 1 0 1).subtotal = 0 := by
      simp [spec_price_breakdown, hdr, hsp]
    rw [h, hs] at hc
    norm_num at hc
  · have hsf : (calculate_price_breakdown c7Property [] 1 0 1).service_fee =
        roundHalfEvenC (rawServiceFee (5 / 2) (c7Property.cleaning_fee.getD 0)) := by
      simp [calculate_price_breakdown, hdr, hnp2]
    rw [hsf, hraw2]
    exact roundHalfEvenC_eighth
  · have hsf : (spec_price_breakdown c7Property [] 1 0 1).service_fee =
        roundHalfUpC ((5 / 2 + c7Property.cleaning_fee.getD 0) * (5 / 100)) := by
      simp [spec_price_breakdown, hdr, hsp2]
    have hq : (5 / 2 + c7Property.cleaning_fee.getD 0) * (5 / 100) = (1 / 8 : ℚ) := by
      simp only [c7Property, Option.getD_some]
      norm_num
    rw [hsf, hq]
    exact roundHalfUpC_eighth

/-- C7 (amended): per-night price is the CalendarCell override when present
and nonzero, else `base_price` (an override of 0 falls back to the base
price); `subtotal` is the sum of the nightly prices; `service_fee` is
`(subtotal + cleaning_fee) * 0.05` rounded to cents half-even (banker's
rounding, Python's default `quantize` mode); `taxes` is
`(subtotal + cleaning_fee + unrounded service fee) * tax_rate / 100` rounded
half-even when a nonzero `tax_rate` is configured and `tax_included` is
false, else 0; `total` is the sum of subtotal, cleaning fee and the
unrounded fee and taxes, rounded half-even. -/
theorem C7_price_breakdown (p : PropertyRec) (cal : List CalCell) (pid : ℕ) (ci co : ℤ) :
    (calculate_price_breakdown p cal pid ci co).nightly_rates =
      (dateRange ci co).map (fun d => (d, nightlyPrice p cal pid d)) ∧
    (calculate_price_breakdown p cal pid ci co).subtotal =
      ((dateRange ci co).map (nightlyPrice p cal pid)).sum ∧
    (calculate_price_breakdown p cal pid ci co).cleaning_fee = p.cleaning_fee.getD 0 ∧
    (calculate_price_breakdown p cal pid ci co).service_fee =
      roundHalfEvenC (rawServiceFee (calculate_price_breakdown p cal pid ci co).subtotal
        (calculate_price_breakdown p cal pid ci co).cleaning_fee) ∧
    (calculate_price_breakdown p cal pid ci co).taxes =
      roundHalfEvenC (rawTaxesOf p (calculate_price_breakdown p cal pid ci co).subtotal
        (calculate_price_breakdown p cal pid ci co).cleaning_fee) ∧
    (calculate_price_breakdown p cal pid ci co).total =
      roundHalfEvenC ((calculate_price_breakdown p cal pid ci co).subtotal +
        (calculate_price_breakdown p cal pid ci co).cleaning_fee +
        rawServiceFee (calculate_price_breakdown p cal pid ci co).subtotal
          (calculate_price_breakdown p cal pid ci co).cleaning_fee +
        rawTaxesOf p (calculate_price_breakdown p cal pid ci co).subtotal
          (calculate_price_breakdown p cal pid ci co).cleaning_fee) ∧
    (∀ d c pr, calLookup cal pid d = some c → c.price = some pr → pr ≠ 0 →
      nightlyPrice p cal pid d = pr) ∧
    (∀ d c, calLookup cal pid d = some c → c.price = some 0 →
      nightlyPrice p cal pid d = p.base_price) ∧
    (∀ d, calLookup cal pid d = none → nightlyPrice p cal pid d = p.base_price) := by
  refine ⟨rfl, by simp [calculate_price_breakdown, List.map_map, Function.comp_def], rfl, rfl,
    rfl, rfl, ?_, ?_, ?_⟩
  · intro d c pr hc hpr hne
    simp [nightlyPrice, hc, hpr, hne]
  · intro d c hc hpr
    simp [nightlyPrice, hc, hpr]
  · intro d hd
    simp [nightlyPrice, hd]

/-- Witness instantiating `C7_price_breakdown` at a concrete calendar and
discharging the nightly-price hypotheses there. -/
theorem C7_price_breakdown_witness :
    nightlyPrice c7Property [c7CellOverride] 1 0 = 3 ∧
    nightlyPrice c7Property c7Calendar 1 0 = c7Property.base_price := by
  constructor
  · exact (C7_price_breakdown c7Property [c7CellOverride] 1 0 1).2.2.2.2.2.2.1 0
      c7CellOverride 3 rfl rfl (by norm_num)
  · exact (C7_price_breakdown c7Property c7Calendar 1 0 1).2.2.2.2.2.2.2.1 0
      (c7Calendar.getD 0 c7CellOverride) rfl rfl

/-! ## `create_booking` (lines 841-1027) and its availability check -/

structure BookingRow where
  id : ℕ
  property_id : ℕ
  check_in : ℤ
  check_out : ℤ
  status : String
  stripe_payment_intent_id : Option ℕ
  deriving Repr, DecidableEq

structure DB where
  bookings : List BookingRow
  cells : List CalCell
  deriving Repr, DecidableEq

/-- The `WHERE` clause of the conflicting-booking query in
`check_availability_internal`: same property, status in
`{reserved, confirmed}`, `check_in < check_out'` and `check_in' < check_out`. -/
def conflictsWith (b : BookingRow) (pid : ℕ) (ci co : ℤ) : Bool :=
  b.property_id == pid && (b.status == "reserved" || b.status == "confirmed") &&
    decide (b.check_in < co) && decide (ci < b.check_out)

/-- Embedding of `check_availability_internal` (lines 1030-1069).  The code
fetches the conflicting booking with `scalar_one_or_none`; the Bool test here
agrees with it whenever at most one row matches. -/
def check_availability_internal (db : DB) (pid : ℕ) (ci co : ℤ) : Bool :=
  let conflicting := db.bookings.filter (fun b => conflictsWith b pid ci co)
  if ¬conflicting.isEmpty then false
  else
    let blocked := db.cells.filter (fun c =>
      c.property_id == pid && decide (c.date ∈ dateRange ci co) && c.available == false)
    blocked.isEmpty

/-- The calendar upsert of step 9: `pg_insert(...).on_conflict_do_update` on
`(property_id, date)`.  On conflict the existing row is UPDATED (availability,
status, booking_id) — no `IntegrityError` is raised and the insert's price is
not written; otherwise a fresh tentative row is inserted. -/
def upsertTentativeCell (cells : List CalCell) (pid : ℕ) (d : ℤ) (bid : ℕ) (price : ℚ) :
    List CalCell :=
  if cells.any (fun c => c.property_id == pid && c.date == d) then
    cells.map (fun c =>
      if c.property_id == pid && c.date == d then
        { c with available := false, availability_status := "tentative", booking_id := some bid }
      else c)
  else
    cells ++ [{ property_id := pid, date := d, available := false,
                availability_status := "tentative", price := some price,
                booking_id := some bid }]

/-- `price_breakdown.nightly_rates[(d - check_in).days].price if ... < len
else property.base_price`. -/
def tentativePriceFor (p : PropertyRec) (bd : PriceBreakdown) (ci d : ℤ) : ℚ :=
  (bd.nightly_rates.getD (d - ci).toNat ((0 : ℤ), p.base_price)).2

/-- Steps 8-9 of `create_booking`: insert the `reserved` booking row and
upsert every calendar cell of `[check_in, check_out)` to tentative. -/
def createBookingWrite (db : DB) (p : PropertyRec) (pid : ℕ) (ci co : ℤ)
    (bid intentId : ℕ) : DB :=
  let bd := calculate_price_breakdown p db.cells pid ci co
  let booking : BookingRow :=
    { id := bid, property_id := pid, check_in := ci, check_out := co,
      status := "reserved", stripe_payment_intent_id := some intentId }
  let cells := (dateRange ci co).foldl
    (fun cs d => upsertTentativeCell cs pid d bid (tentativePriceFor p bd ci d)) db.cells
  { bookings := db.bookings ++ [booking], cells := cells }

structure CreateEnv where
  stripeCreateFails : Bool
  commitIntegrityError : Bool
  deriving Repr, DecidableEq

structure CreateOutcome where
  httpStatus : ℕ
  db : DB
  createdIntents : List ℕ
  cancelledIntents : List ℕ
  deriving Repr, DecidableEq

/-- Embedding of one `create_booking` transaction (lines 841-1027), run while
holding the per-(property, date-range) Redis lock.  The property lookup has
succeeded (404 is environmental); `env` injects the failure modes after the
lock: Stripe intent creation raising (500 before any insert), and the commit
raising `IntegrityError` (`db.rollback()` then 409).  `cancelledIntents`
records every `stripe.PaymentIntent.cancel` call the handler makes — the
source contains none on any path. -/
def create_booking (env : CreateEnv) (p : PropertyRec) (db : DB) (pid : ℕ) (ci co : ℤ)
    (bid intentId : ℕ) : CreateOutcome :=
  if ¬check_availability_internal db pid ci co then
    { httpStatus := 409, db := db, createdIntents := [], cancelledIntents := [] }
  else if env.stripeCreateFails then
    { httpStatus := 500, db := db, createdIntents := [], cancelledIntents := [] }
  else if env.commitIntegrityError then
    { httpStatus := 409, db := db, createdIntents := [intentId], cancelledIntents := [] }
  else
    { httpStatus := 201, db := createBookingWrite db p pid ci co bid intentId,
      createdIntents := [intentId], cancelledIntents := [] }

/-- `lock_key = f"booking:lock:\x7brequest.property_id\x7d:\x7brequest.check_in\x7d:\x7brequest.check_out\x7d"` -/
def lockKey (pid : ℕ) (ci co : ℤ) : String :=
  "booking:lock:" ++ toString pid ++ ":" ++ toString ci ++ ":" ++ toString co

/-- The interleaving the Redis lock permits when the two requests hash to
different lock keys: both availability checks run before either transaction
commits its writes. -/
def create_booking_race (p : PropertyRec) (db : DB) (pid : ℕ) (ci1 co1 ci2 co2 : ℤ)
    (bid1 bid2 i1 i2 : ℕ) : ℕ × ℕ × DB :=
  let ok1 := check_availability_internal db pid ci1 co1
  let ok2 := check_availability_internal db pid ci2 co2
  let db1 := if ok1 then createBookingWrite db p pid ci1 co1 bid1 i1 else db
  let db2 := if ok2 then createBookingWrite db1 p pid ci2 co2 bid2 i2 else db1
  (if ok1 then 201 else 409, if ok2 then 201 else 409, db2)

/-- Two distinct bookings in `{reserved, confirmed}` on the same property
with overlapping `[check_in, check_out)` ranges exist. -/
def overlapViolation (db : DB) : Bool :=
  db.bookings.any (fun b1 => db.bookings.any (fun b2 =>
    decide (b1.id ≠ b2.id) && b1.property_id == b2.property_id &&
    (b1.status == "reserved" || b1.status == "confirmed") &&
    (b2.status == "reserved" || b2.status == "confirmed") &&
    decide (b1.check_in < b2.check_out) && decide (b2.check_in < b1.check_out)))

def c1Property : PropertyRec :=
  { base_price := 100
    cleaning_fee := none
    tax_rate := none
    tax_included := false }

def emptyDB : DB := { bookings := [], cells := [] }

/-- C1: two concurrent `create_booking` requests for the same property with
overlapping ranges `[0,4)` and `[2,7)` take different lock keys (the key
embeds the exact dates), so the lock does not serialize them; the calendar
upsert is `ON CONFLICT DO UPDATE`, so the second writer is not aborted:
both requests return 201 and two overlapping `reserved` bookings persist,
violating the invariant the claim states. -/
theorem C1_double_booking_race :
    lockKey 1 0 4 ≠ lockKey 1 2 7 ∧
    (create_booking_race c1Property emptyDB 1 0 4 2 7 11 12 71 72).1 = 201 ∧
    (create_booking_race c1Property emptyDB 1 0 4 2 7 11 12 71 72).2.1 = 201 ∧
    overlapViolation (create_booking_race c1Property emptyDB 1 0 4 2 7 11 12 71 72).2.2 =
      true := by
  refine ⟨by decide, rfl, rfl, by decide⟩

/-- C3: `create_booking` never cancels a payment intent on any path — after
the intent is created (step 7), the `IntegrityError` handler rolls the
booking back and returns 409 with the intent left uncancelled at the
processor.  The concrete run makes the divergence explicit. -/
theorem C3_intent_not_cancelled :
    (∀ env p db pid ci co bid i,
      (create_booking env p db pid ci co bid i).cancelledIntents = []) ∧
    (create_booking ⟨false, true⟩ c1Property emptyDB 1 0 4 11 71).httpStatus = 409 ∧
    (create_booking ⟨false, true⟩ c1Property emptyDB 1 0 4 11 71).db = emptyDB ∧
    (create_booking ⟨false, true⟩ c1Property emptyDB 1 0 4 11 71).createdIntents = [71] := by
  refine ⟨?_, by decide, by decide, by decide⟩
  intro env p db pid ci co bid i
  unfold create_booking
  split
  · rfl
  · split
    · rfl
    · split <;> rfl

/-! ## `confirm_booking` (lines 1152-1284) and `cancel_booking` (lines 1421-1543) -/

structure BookingFull where
  id : ℕ
  property_id : ℕ
  booking_reference : String
  check_in : ℤ
  check_out : ℤ
  status : String
  payment_status : String
  stripe_payment_intent_id : Option ℕ
  total_price : ℚ
  paid_amount : Option ℚ
  paid_at : Option ℤ
  confirmed_at : Option ℤ
  cancelled_at : Option ℤ
  cancellation_reason : Option String
  refund_amount : Option ℚ
  updated_at : ℤ
  deriving Repr, DecidableEq

structure PaymentTxn where
  booking_id : ℕ
  transaction_type : String
  amount : ℚ
  stripe_payment_intent_id : Option ℕ
  stripe_refund_id : Option ℕ
  deriving Repr, DecidableEq

structure BState where
  bookings : List BookingFull
  cells : List CalCell
  transactions : List PaymentTxn
  deriving Repr, DecidableEq

structure StripeIntent where
  id : ℕ
  status : String
  amount_received : ℤ
  deriving Repr, DecidableEq

/-- `stripe.PaymentIntent.retrieve`; `none` models a `StripeError`. -/
def stripeRetrieve (intents : List StripeIntent) (iid : ℕ) : Option StripeIntent :=
  intents.find? (fun it => it.id == iid)

def findBooking (l : List BookingFull) (bid : ℕ) : Option BookingFull :=
  l.find? (fun b => b.id == bid)

def updateBooking (l : List BookingFull) (bid : ℕ) (f : BookingFull → BookingFull) :
    List BookingFull :=
  l.map (fun b => if b.id == bid then f b else b)

structure ConfirmResp where
  booking_id : ℕ
  status : String
  payment_status : String
  confirmed_at : Option ℤ
  deriving Repr, DecidableEq

/-- Embedding of `confirm_booking`: 404 when the booking is missing; the
idempotency branch returns success untouched when already `confirmed + paid`;
400 on wrong state, mismatched intent id, Stripe retrieval failure, or an
intent whose status is not `succeeded`; otherwise the booking is confirmed,
the calendar rows of the stay are set to `booked`, and one payment
transaction row is inserted. -/
def confirm_booking (intents : List StripeIntent) (now : ℤ) (st : BState) (bid iid : ℕ) :
    Except ℕ ConfirmResp × BState :=
  match findBooking st.bookings bid with
  | none => (Except.error 404, st)
  | some b =>
    if b.status = "confirmed" ∧ b.payment_status = "paid" then
      (Except.ok ⟨b.id, "confirmed", "paid", b.confirmed_at⟩, st)
    else if b.status ≠ "reserved" then (Except.error 400, st)
    else if b.stripe_payment_intent_id ≠ some iid then (Except.error 400, st)
    else
      match stripeRetrieve intents iid with
      | none => (Except.error 400, st)
      | some intent =>
        if intent.status ≠ "succeeded" then (Except.error 400, st)
        else
          let b' := { b with
            status := "confirmed", payment_status := "paid",
            paid_amount := some ((intent.amount_received : ℚ) / 100),
            paid_at := some now, confirmed_at := some now, updated_at := now }
          let cells' := st.cells.map (fun c =>
            if c.property_id == b.property_id &&
               decide (c.date ∈ dateRange b.check_in b.check_out) then
              { c with availability_status := "booked" }
            else c)
          let txn : PaymentTxn :=
            ⟨b.id, "payment", b.total_price, some intent.id, none⟩
          (Except.ok ⟨b.id, "confirmed", "paid", some now⟩,
           { bookings := updateBooking st.bookings bid (fun _ => b')
             cells := cells'
             transactions := st.transactions ++ [txn] })

structure CancelResp where
  booking_id : ℕ
  status : String
  refund_status : Option String
  refund_amount : Option ℚ
  deriving Repr, DecidableEq

/-- Outcome of `stripe.Refund.create`: `ok status refund_id`, or `err` for a
raised `StripeError`. -/
inductive RefundOutcome where
  | ok (status : String) (refund_id : ℕ)
  | err
  deriving Repr, DecidableEq

/-- Embedding of `calculate_refund_amount` (lines 1546-1562). -/
def calculate_refund_amount (b : BookingFull) (today : ℤ) : ℚ :=
  let days_until_checkin := b.check_in - today
  if days_until_checkin ≥ 7 then b.total_price
  else if days_until_checkin ≥ 3 then b.total_price * (1 / 2)
  else 0

/-- Embedding of `cancel_booking`.  On a paid booking with a positive policy
refund, a raised `StripeError` only sets `refund_status = "failed"` and the
cancellation proceeds: status becomes `cancelled`, `payment_status` becomes
`refunded` whenever `refund_amount` is truthy, the booking's calendar rows
are released, and no refund transaction row is written. -/
def cancel_booking (refund : RefundOutcome) (today now : ℤ) (st : BState) (bid : ℕ)
    (reason : Option String) : Except ℕ CancelResp × BState :=
  match findBooking st.bookings bid with
  | none => (Except.error 404, st)
  | some b =>
    if b.status = "checked_in" ∨ b.status = "checked_out" then (Except.error 400, st)
    else if b.status = "cancelled" then (Except.error 400, st)
    else
      let refundInfo : Option ℚ × Option String × List PaymentTxn :=
        if b.payment_status = "paid" ∧ b.stripe_payment_intent_id ≠ none then
          let amount := calculate_refund_amount b today
          if 0 < amount then
            match refund with
            | .ok rstatus rid =>
                (some amount,
                 some (if rstatus = "pending" then "processing" else "completed"),
                 [⟨b.id, "refund", amount, none, some rid⟩])
            | .err => (some amount, some "failed", [])
          else (some amount, none, [])
        else (none, none, [])
      let paymentStatusNew :=
        match refundInfo.1 with
        | some a => if a ≠ 0 then "refunded" else b.payment_status
        | none => b.payment_status
      let b' := { b with
        status := "cancelled", payment_status := paymentStatusNew,
        cancelled_at := some now, cancellation_reason := reason,
        refund_amount := refundInfo.1, updated_at := now }
      let cells' := st.cells.map (fun c =>
        if c.property_id == b.property_id &&
           decide (c.date ∈ dateRange b.check_in b.check_out) &&
           c.booking_id == some b.id then
          { c with available := true, availability_status := "available", booking_id := none }
        else c)
      (Except.ok ⟨b.id, "cancelled", refundInfo.2.1, refundInfo.1⟩,
       { bookings := updateBooking st.bookings bid (fun _ => b')
         cells := cells'
         transactions := st.transactions ++ refundInfo.2.2 })

theorem findBooking_update_const {l : List BookingFull} {bid : ℕ} {b : BookingFull}
    (nb : BookingFull) (hb : findBooking l bid = some b) (hnb : (nb.id == bid) = true) :
    findBooking (updateBooking l bid (fun _ => nb)) bid = some nb := by
  induction l with
  | nil => simp [findBooking] at hb
  | cons a l ih =>
    by_cases h : (a.id == bid) = true
    · simp only [updateBooking, List.map_cons, if_pos h]
      unfold findBooking
      exact List.find?_cons_of_pos (p := fun (x : BookingFull) => x.id == bid) _ hnb
    · simp only [updateBooking, List.map_cons, if_neg h]
      unfold findBooking at hb ⊢
      rw [List.find?_cons_of_neg (p := fun (x : BookingFull) => x.id == bid) _ h] at hb
      rw [List.find?_cons_of_neg (p := fun (x : BookingFull) => x.id == bid) _ h]
      exact ih hb

/-- C2: `confirm_booking` is idempotent — if a call returns success, every
later call with the same `(booking_id, payment_intent_id)` (under any Stripe
environment and clock) returns the same success response and leaves the
booking rows, calendar cells, and payment-transaction table exactly as the
first call left them. -/
theorem C2_confirm_idempotent (intents : List StripeIntent) (now : ℤ) (st : BState)
    (bid iid : ℕ) (resp : ConfirmResp) (st2 : BState)
    (h : confirm_booking intents now st bid iid = (Except.ok resp, st2)) :
    ∀ intents2 now2, confirm_booking intents2 now2 st2 bid iid = (Except.ok resp, st2) := by
  intro intents2 now2
  unfold confirm_booking at h
  cases hfb : findBooking st.bookings bid with
  | none =>
    rw [hfb] at h
    exact absurd (congrArg Prod.fst h) (by simp)
  | some b =>
    rw [hfb] at h
    dsimp only at h
    have hfb2 : List.find? (fun x => x.id == bid) st.bookings = some b := hfb
    have hbid : (b.id == bid) = true := List.find?_some (p := fun (x : BookingFull) => x.id == bid) hfb2
    by_cases hconf : b.status = "confirmed" ∧ b.payment_status = "paid"
    · rw [if_pos hconf] at h
      have hst : st2 = st := (congrArg Prod.snd h).symm
      have hresp : resp = ⟨b.id, "confirmed", "paid", b.confirmed_at⟩ := by
        have := congrArg Prod.fst h
        simpa using this.symm
      subst hst
      subst hresp
      unfold confirm_booking
      rw [hfb]
      dsimp only
      rw [if_pos hconf]
    · rw [if_neg hconf] at h
      by_cases hres : b.status ≠ "reserved"
      · rw [if_pos hres] at h
        exact absurd (congrArg Prod.fst h) (by simp)
      · rw [if_neg hres] at h
        by_cases hpi : b.stripe_payment_intent_id ≠ some iid
        · rw [if_pos hpi] at h
          exact absurd (congrArg Prod.fst h) (by simp)
        · rw [if_neg hpi] at h
          cases hsr : stripeRetrieve intents iid with
          | none =>
            rw [hsr] at h
            exact absurd (congrArg Prod.fst h) (by simp)
          | some intent =>
            rw [hsr] at h
            dsimp only at h
            by_cases hsu : intent.status ≠ "succeeded"
            · rw [if_pos hsu] at h
              exact absurd (congrArg Prod.fst h) (by simp)
            · rw [if_neg hsu] at h
              injection h with h1 h2
              injection h1 with hr
              have hkey := findBooking_update_const
                ({ b with
                   status := "confirmed", payment_status := "paid",
                   paid_amount := some ((intent.amount_received : ℚ) / 100),
                   paid_at := some now, confirmed_at := some now, updated_at := now })
                hfb hbid
              rw [← h2, ← hr]
              unfold confirm_booking
              dsimp only
              rw [hkey]
              dsimp only
              rw [if_pos ⟨rfl, rfl⟩]

def c2Intent : StripeIntent := { id := 7, status := "succeeded", amount_received := 10000 }

def c2Booking : BookingFull :=
  { id := 3
    property_id := 1
    booking_reference := "PMS-2026-000001"
    check_in := 0
    check_out := 2
    status := "reserved"
    payment_status := "pending"
    stripe_payment_intent_id := some 7
    total_price := 100
    paid_amount := none
    paid_at := none
    confirmed_at := none
    cancelled_at := none
    cancellation_reason := none
    refund_amount := none
    updated_at := 0 }

def c2State : BState := { bookings := [c2Booking], cells := [], transactions := [] }

def c2Resp : ConfirmResp :=
  { booking_id := 3, status := "confirmed", payment_status := "paid", confirmed_at := some 5 }

/-- Witness for C2: a concrete reserved booking whose intent has succeeded;
the first call confirms it, and the replay — under an empty Stripe
environment and a later clock — returns the same success without change. -/
theorem C2_confirm_idempotent_witness :
    confirm_booking [] 9 (confirm_booking [c2Intent] 5 c2State 3 7).2 3 7 =
      (Except.ok c2Resp, (confirm_booking [c2Intent] 5 c2State 3 7).2) := by
  have h1 : (confirm_booking [c2Intent] 5 c2State 3 7).1 = Except.ok c2Resp := rfl
  have h : confirm_booking [c2Intent] 5 c2State 3 7 =
      (Except.ok c2Resp, (confirm_booking [c2Intent] 5 c2State 3 7).2) := by
    rw [← h1]
  exact C2_confirm_idempotent [c2Intent] 5 c2State 3 7 c2Resp _ h [] 9

/-- C10: on a paid booking with a positive policy refund, a failed
(`StripeError`-raising) refund call still cancels the booking, records
`payment_status = refunded` and the computed `refund_amount`, releases the
calendar cells, writes no refund transaction, and reports
`refund_status = "failed"` to the caller. -/
theorem C10_cancel_refund_failure (today now : ℤ) (st : BState) (bid : ℕ)
    (reason : Option String) (b : BookingFull)
    (hfb : findBooking st.bookings bid = some b)
    (hs1 : ¬(b.status = "checked_in" ∨ b.status = "checked_out"))
    (hs2 : ¬b.status = "cancelled")
    (hpaid : b.payment_status = "paid")
    (hint : b.stripe_payment_intent_id ≠ none)
    (hamt : 0 < calculate_refund_amount b today) :
    (cancel_booking .err today now st bid reason).1 =
      Except.ok ⟨b.id, "cancelled", some "failed", some (calculate_refund_amount b today)⟩ ∧
    findBooking (cancel_booking .err today now st bid reason).2.bookings bid =
      some { b with
        status := "cancelled", payment_status := "refunded",
        cancelled_at := some now, cancellation_reason := reason,
        refund_amount := some (calculate_refund_amount b today), updated_at := now } ∧
    (cancel_booking .err today now st bid reason).2.transactions = st.transactions ∧
    (∀ c ∈ st.cells, c.property_id = b.property_id →
      c.date ∈ dateRange b.check_in b.check_out → c.booking_id = some b.id →
      { c with available := true, availability_status := "available", booking_id := none } ∈
        (cancel_booking .err today now st bid reason).2.cells) := by
  have hfb2 : List.find? (fun x => x.id == bid) st.bookings = some b := hfb
  have hbid : (b.id == bid) = true := List.find?_some (p := fun (x : BookingFull) => x.id == bid) hfb2
  have hrefund : ¬calculate_refund_amount b today = 0 := ne_of_gt hamt
  have hrun : cancel_booking .err today now st bid reason =
      (Except.ok ⟨b.id, "cancelled", some "failed", some (calculate_refund_amount b today)⟩,
       { bookings := updateBooking st.bookings bid (fun _ =>
           { b with
             status := "cancelled", payment_status := "refunded",
             cancelled_at := some now, cancellation_reason := reason,
             refund_amount := some (calculate_refund_amount b today), updated_at := now })
         cells := st.cells.map (fun c =>
           if c.property_id == b.property_id &&
              decide (c.date ∈ dateRange b.check_in b.check_out) &&
              c.booking_id == some b.id then
             { c with
               available := true, availability_status := "available", booking_id := none }
           else c)
         transactions := st.transactions ++ [] }) := by
    unfold cancel_booking
    rw [hfb]
    simp only [if_neg hs1, if_neg hs2, if_pos (And.intro hpaid hint), if_pos hamt,
      if_pos hrefund]
  refine ⟨by rw [hrun], ?_, by rw [hrun]; simp, ?_⟩
  · rw [hrun]
    exact findBooking_update_const _ hfb hbid
  · intro c hc h1 h2 h3
    rw [hrun]
    exact List.mem_map.mpr ⟨c, hc, by simp [h1, h2, h3]⟩

def c10Booking : BookingFull :=
  { c2Booking with
    id := 4, check_in := 10, check_out := 12, status := "confirmed",
    payment_status := "paid", stripe_payment_intent_id := some 7, total_price := 100 }

def c10Cell : CalCell :=
  { property_id := 1
    date := 10
    available := false
    availability_status := "booked"
    price := none
    booking_id := some 4 }

def c10State : BState :=
  { bookings := [c10Booking]
    cells := [c10Cell]
    transactions := [] }

/-- Witness for C10 at a concrete paid booking cancelled 10 days before
check-in (full refund due) whose Stripe refund call raises. -/
theorem C10_cancel_refund_failure_witness :
    (cancel_booking .err 0 1 c10State 4 none).1 =
      Except.ok ⟨4, "cancelled", some "failed", some (calculate_refund_amount c10Booking 0)⟩ ∧
    (cancel_booking .err 0 1 c10State 4 none).2.transactions = c10State.transactions := by
  have h := C10_cancel_refund_failure 0 1 c10State 4 none c10Booking rfl
    (by decide) (by decide) rfl (by decide)
    (by rw [show calculate_refund_amount c10Booking 0 = 100 from rfl]; norm_num)
  exact ⟨h.1, h.2.2.1⟩

/-! ## Sliding-window rate limiter (`rate-limiter.py`)

A Redis sorted-set key is a duplicate-free list of members; a member of the
rate-limit key is the pair `(now, weight)` standing for the string
`f"now:weight"` scored at `now`. -/

structure RateLimitConfig where
  max_requests : ℕ
  window_seconds : ℚ
  burst_limit : Option ℕ
  deriving Repr, DecidableEq

def RATE_LIMITS : List (String × RateLimitConfig) :=
  [("airbnb", ⟨10, 1, some 15⟩),
   ("booking_com", ⟨20, 60, some 30⟩),
   ("expedia", ⟨50, 1, some 75⟩),
   ("fewo_direkt", ⟨30, 1, some 45⟩),
   ("google", ⟨100, 1, some 150⟩)]

/-- `RATE_LIMITS.get(channel_type, RateLimitConfig(max_requests=10, window_seconds=1))` -/
def getRateConfig (channel : String) : RateLimitConfig :=
  ((RATE_LIMITS.find? (fun p => p.1 == channel)).map Prod.snd).getD ⟨10, 1, none⟩

/-- `effective_limit = config.burst_limit or config.max_requests` (a zero
burst limit is falsy). -/
def effectiveLimit (cfg : RateLimitConfig) : ℕ :=
  match cfg.burst_limit with
  | some b => if b = 0 then cfg.max_requests else b
  | none => cfg.max_requests

/-- The first Redis round-trip of `acquire`: the pipelined
`zremrangebyscore(key, 0, now − W)` followed by `zcard`, atomic as one
`MULTI/EXEC` unit.  Members with score in `[0, now − W]` are discarded. -/
def acquirePrune (cfg : RateLimitConfig) (now : ℚ) (st : List (ℚ × ℕ)) : List (ℚ × ℕ) :=
  st.filter (fun m => !(decide (0 ≤ m.1) && decide (m.1 ≤ now - cfg.window_seconds)))

/-- `zadd(key, \x7bmember: now\x7d)`: inserts the member unless it is already
present (in which case only its score would be rewritten). -/
def zaddMember (st : List (ℚ × ℕ)) (m : ℚ × ℕ) : List (ℚ × ℕ) :=
  if m ∈ st then st else st ++ [m]

/-- Embedding of `ChannelRateLimiter.acquire` (lines 183-256): prune and
count in one pipeline; reject when `current_count + weight > effective_limit`;
otherwise append the single member `f"now:weight"` in a separate `zadd`
round-trip and return true. -/
def acquire (cfg : RateLimitConfig) (now : ℚ) (w : ℕ) (st : List (ℚ × ℕ)) :
    Bool × List (ℚ × ℕ) :=
  let pruned := acquirePrune cfg now st
  let current_count := pruned.length
  if effectiveLimit cfg < current_count + w then (false, pruned)
  else (true, zaddMember pruned (now, w))

/-- Two concurrent `acquire` calls on the same key: because the `zadd` is a
separate round-trip from the prune-and-count pipeline, both counts can be
taken before either append happens.  Each caller decides from its own count. -/
def acquire_race (cfg : RateLimitConfig) (now1 now2 : ℚ) (w1 w2 : ℕ)
    (st : List (ℚ × ℕ)) : Bool × Bool × List (ℚ × ℕ) :=
  let pruned1 := acquirePrune cfg now1 st
  let c1 := pruned1.length
  let pruned2 := acquirePrune cfg now2 pruned1
  let c2 := pruned2.length
  let ok1 := !decide (effectiveLimit cfg < c1 + w1)
  let ok2 := !decide (effectiveLimit cfg < c2 + w2)
  let st1 := if ok1 then zaddMember pruned2 (now1, w1) else pruned2
  let st2 := if ok2 then zaddMember st1 (now2, w2) else st1
  (ok1, ok2, st2)

def cfgAirbnb : RateLimitConfig := getRateConfig "airbnb"

def cfgBooking : RateLimitConfig := getRateConfig "booking_com"

/-- 29 in-window members of the booking.com key (integer scores 0..28). -/
def rl29 : List (ℚ × ℕ) := (List.range 29).map (fun (k : ℕ) => ((k : ℚ), 1))

theorem rl29_kept (now : ℚ) (hnow : now - cfgBooking.window_seconds < 0) :
    acquirePrune cfgBooking now rl29 = rl29 := by
  apply List.filter_eq_self.mpr
  intro a ha
  obtain ⟨k, -, rfl⟩ := List.mem_map.mp ha
  have h1 : ¬((((k : ℚ), 1) : ℚ × ℕ).1 ≤ now - cfgBooking.window_seconds) := by
    have hk : (0 : ℚ) ≤ (k : ℚ) := Nat.cast_nonneg k
    simp only []
    linarith
  simp [decide_eq_false h1]

theorem rl29_not_mem (x : ℕ) (hx : 29 ≤ x) : (((x : ℕ) : ℚ), 1) ∉ rl29 := by
  intro hmem
  obtain ⟨k, hk, hEq⟩ := List.mem_map.mp hmem
  have h1 : (k : ℚ) = (x : ℚ) := congrArg Prod.fst hEq
  have h2 : k = x := by exact_mod_cast h1
  rw [List.mem_range] at hk
  omega

/-- C4 counterexample: (a) a successful `acquire` with weight 2 appends ONE
member, so the live count a later call observes grows by 1, not by `w`;
(b) the discard/count pipeline and the `zadd` are separate Redis operations,
so two interleaved weight-1 acquires on a booking.com key already holding 29
in-window timestamps (burst limit 30) are both admitted and leave 31 > 30
members, an outcome no serial order produces: executed serially, the second
call is rejected; (c) a rejected call does change the stored set — the
pipeline has already discarded the expired members. -/
theorem C4_counterexample :
    ((acquire cfgAirbnb 0 2 []).1 = true ∧
      (acquire cfgAirbnb 0 2 []).2.length = 1) ∧
    ((acquire_race cfgBooking 30 31 1 1 rl29).1 = true ∧
      (acquire_race cfgBooking 30 31 1 1 rl29).2.1 = true ∧
      (acquire_race cfgBooking 30 31 1 1 rl29).2.2.length = 31 ∧
      (acquire cfgBooking 31 1 (acquire cfgBooking 30 1 rl29).2).1 = false) ∧
    ((acquire cfgAirbnb 2 20 [((0 : ℚ), 1)]).1 = false ∧
      (acquire cfgAirbnb 2 20 [((0 : ℚ), 1)]).2 = []) := by
  have hlen : rl29.length = 29 := by
    unfold rl29
    rw [List.length_map, List.length_range]
  have heffB : effectiveLimit cfgBooking = 30 := rfl
  have hk30 : acquirePrune cfgBooking 30 rl29 = rl29 := rl29_kept 30 (by
    rw [show cfgBooking.window_seconds = 60 from rfl]; norm_num)
  have hk31 : acquirePrune cfgBooking 31 rl29 = rl29 := rl29_kept 31 (by
    rw [show cfgBooking.window_seconds = 60 from rfl]; norm_num)
  have hm30 : (((30 : ℚ), 1) : ℚ × ℕ) ∉ rl29 := by
    have h := rl29_not_mem 30 (by omega)
    simpa using h
  have hm31 : (((31 : ℚ), 1) : ℚ × ℕ) ∉ rl29 ++ [(((30 : ℚ), 1) : ℚ × ℕ)] := by
    have h1 := rl29_not_mem 31 (by omega)
    simp only [List.mem_append, List.mem_singleton, not_or]
    constructor
    · simpa using h1
    · intro hEq
      have h2 : (31 : ℚ) = 30 := congrArg Prod.fst hEq
      norm_num at h2
  have hz30 : zaddMember rl29 ((30 : ℚ), 1) = rl29 ++ [((30 : ℚ), 1)] := by
    rw [zaddMember, if_neg hm30]
  have hz31 : zaddMember (rl29 ++ [((30 : ℚ), 1)]) ((31 : ℚ), 1) =
      rl29 ++ [((30 : ℚ), 1)] ++ [((31 : ℚ), 1)] := by
    rw [zaddMember, if_neg hm31]
  have hcond : (!decide (effectiveLimit cfgBooking < rl29.length + 1)) = true := by
    rw [heffB, hlen]
    decide
  refine ⟨⟨rfl, rfl⟩, ?_, ?_⟩
  · have hrace : acquire_race cfgBooking 30 31 1 1 rl29 =
        (true, true, rl29 ++ [((30 : ℚ), 1)] ++ [((31 : ℚ), 1)]) := by
      simp only [acquire_race]
      rw [hk30, hk31]
      simp only [hcond, if_true]
      rw [hz30, hz31]
    have h1 : acquire cfgBooking 30 1 rl29 = (true, rl29 ++ [((30 : ℚ), 1)]) := by
      simp only [acquire]
      rw [hk30]
      rw [if_neg (by rw [heffB, hlen]; omega), hz30]
    have hlen2 : (rl29 ++ [(((30 : ℚ), 1) : ℚ × ℕ)]).length = 30 := by
      rw [List.length_append, hlen]
      rfl
    have hprune2 : acquirePrune cfgBooking 31 (rl29 ++ [((30 : ℚ), 1)]) =
        rl29 ++ [((30 : ℚ), 1)] := by
      unfold acquirePrune at hk31 ⊢
      rw [List.filter_append, hk31]
      have hx : ¬((((30 : ℚ), 1) : ℚ × ℕ).1 ≤ 31 - cfgBooking.window_seconds) := by
        rw [show cfgBooking.window_seconds = 60 from rfl]
        simp only []
        norm_num
      simp [decide_eq_false hx]
    refine ⟨by rw [hrace], by rw [hrace], by rw [hrace]; simp [hlen], ?_⟩
    rw [h1]
    simp only [acquire]
    rw [hprune2]
    rw [if_pos (by rw [hlen2, heffB]; omega)]
  · have hW : cfgAirbnb.window_seconds = 1 := rfl
    have heffA : effectiveLimit cfgAirbnb = 15 := rfl
    have h00 : (0 : ℚ) ≤ (((0 : ℚ), 1) : ℚ × ℕ).1 := le_refl 0
    have hle : ((((0 : ℚ), 1) : ℚ × ℕ).1 ≤ 2 - cfgAirbnb.window_seconds) := by
      simp only [hW]
      norm_num
    have hprC : acquirePrune cfgAirbnb 2 [((0 : ℚ), 1)] = [] := by
      unfold acquirePrune
      norm_num [hW]
    constructor
    · simp only [acquire]
      rw [hprC, if_pos (show effectiveLimit cfgAirbnb < List.length [] + 20 by
        rw [heffA]; norm_num)]
    · simp only [acquire]
      rw [hprC, if_pos (show effectiveLimit cfgAirbnb < List.length [] + 20 by
        rw [heffA]; norm_num)]


/-- C4 (amended): `acquire` discards timestamps with score in `[0, now − W]`
and counts the remainder atomically (one pipeline); if
`count + weight ≤ effective_limit` (burst if set, else N) it appends — in a
separate, non-atomic Redis call — the single member `(now, weight)` (the
weight is only part of the member label) and returns true, so the live count
a later caller observes has grown by exactly one when that member is new;
otherwise it returns false with only the expired timestamps discarded. -/
theorem C4_acquire (cfg : RateLimitConfig) (now : ℚ) (w : ℕ) (st : List (ℚ × ℕ)) :
    (effectiveLimit cfg < (acquirePrune cfg now st).length + w →
      acquire cfg now w st = (false, acquirePrune cfg now st)) ∧
    ((acquirePrune cfg now st).length + w ≤ effectiveLimit cfg →
      acquire cfg now w st = (true, zaddMember (acquirePrune cfg now st) (now, w)) ∧
      ((now, w) ∉ acquirePrune cfg now st →
        (acquire cfg now w st).2.length = (acquirePrune cfg now st).length + 1)) := by
  constructor
  · intro h
    simp [acquire, if_pos h]
  · intro h
    have h2 : ¬(effectiveLimit cfg < (acquirePrune cfg now st).length + w) := by omega
    constructor
    · simp [acquire, if_neg h2]
    · intro hm
      simp [acquire, if_neg h2, zaddMember, hm]

/-- Witness: a weight-2 acquire on an empty airbnb key is admitted
(`0 + 2 ≤ 15`) and leaves exactly one member. -/
theorem C4_acquire_witness :
    acquire cfgAirbnb 0 2 [] = (true, zaddMember (acquirePrune cfgAirbnb 0 []) (0, 2)) ∧
    (acquire cfgAirbnb 0 2 []).2.length = (acquirePrune cfgAirbnb 0 []).length + 1 := by
  have hpr : acquirePrune cfgAirbnb 0 [] = [] := rfl
  have h := (C4_acquire cfgAirbnb 0 2 []).2
    (by rw [hpr, show effectiveLimit cfgAirbnb = 15 from rfl]; norm_num)
  exact ⟨h.1, h.2 (by rw [hpr]; simp)⟩

/-! ## Circuit breaker (`circuit-breaker.py`)

The Redis keys of one breaker are bundled into `CBState`: the `state` string
(`none` when unset, read as CLOSED), the failure sorted-set (scores are the
failure times), the success counter, the `opened_at` stamp, and the
half-open call counter.  Every `_set_state` call is recorded in the trace as
the `(old_state, new_state)` pair that the transition metric receives (no
entry when the state key was unset). -/

inductive CBPhase where
  | closed
  | opened
  | halfOpen
  deriving Repr, DecidableEq

structure CBConfig where
  failure_threshold : ℕ
  success_threshold : ℕ
  timeout : ℚ
  half_open_max_calls : ℕ
  window_size : ℚ
  deriving Repr, DecidableEq

structure CBState where
  stateStr : Option CBPhase
  failures : List ℚ
  successes : ℕ
  openedAt : Option ℚ
  halfOpenCalls : ℕ
  deriving Repr, DecidableEq

/-- `state_str is None → CLOSED`. -/
def cbPhase (s : CBState) : CBPhase := s.stateStr.getD .closed

/-- `_transition_to`: per-state cleanup of the counters followed by
`_set_state`, which records the `(old, new)` transition when the old state
key was present. -/
def transitionTo (now : ℚ) (ph : CBPhase) (s : CBState) :
    CBState × List (CBPhase × CBPhase) :=
  let s1 :=
    match ph with
    | .closed => { s with failures := [], successes := 0, openedAt := none, halfOpenCalls := 0 }
    | .opened => { s with openedAt := some now, successes := 0, halfOpenCalls := 0 }
    | .halfOpen => { s with successes := 0, halfOpenCalls := 0 }
  ({ s1 with stateStr := some ph },
   match s.stateStr with
   | some old => [(old, ph)]
   | none => [])

/-- `get_state` (lines 233-252), including the lazy OPEN → HALF_OPEN
transition when `now - opened_at ≥ timeout`. -/
def get_state (cfg : CBConfig) (now : ℚ) (s : CBState) :
    CBPhase × CBState × List (CBPhase × CBPhase) :=
  match s.stateStr with
  | none => (.closed, s, [])
  | some st =>
    if st = .opened then
      match s.openedAt with
      | some t =>
          if cfg.timeout ≤ now - t then
            let r := transitionTo now .halfOpen s
            (.halfOpen, r.1, r.2)
          else (.opened, s, [])
      | none => (.opened, s, [])
    else (st, s, [])

/-- `can_execute` (lines 313-339). -/
def can_execute (cfg : CBConfig) (now : ℚ) (s : CBState) :
    Bool × CBState × List (CBPhase × CBPhase) :=
  let r := get_state cfg now s
  match r.1 with
  | .closed => (true, r.2.1, r.2.2)
  | .opened => (false, r.2.1, r.2.2)
  | .halfOpen =>
      if cfg.half_open_max_calls ≤ r.2.1.halfOpenCalls then (false, r.2.1, r.2.2)
      else (true, { r.2.1 with halfOpenCalls := r.2.1.halfOpenCalls + 1 }, r.2.2)

/-- `before_execute` (lines 341-366): same admission logic, raising instead
of returning false; only the state effects are modelled. -/
def before_execute (cfg : CBConfig) (now : ℚ) (s : CBState) :
    CBState × List (CBPhase × CBPhase) :=
  let r := get_state cfg now s
  match r.1 with
  | .closed => (r.2.1, r.2.2)
  | .opened => (r.2.1, r.2.2)
  | .halfOpen =>
      if cfg.half_open_max_calls ≤ r.2.1.halfOpenCalls then (r.2.1, r.2.2)
      else ({ r.2.1 with halfOpenCalls := r.2.1.halfOpenCalls + 1 }, r.2.2)

/-- `record_success` (lines 368-386). -/
def record_success (cfg : CBConfig) (now : ℚ) (s : CBState) :
    CBState × List (CBPhase × CBPhase) :=
  let r := get_state cfg now s
  if r.1 = .halfOpen then
    let succ := r.2.1.successes + 1
    let s2 := { r.2.1 with successes := succ }
    if cfg.success_threshold ≤ succ then
      let t := transitionTo now .closed s2
      (t.1, r.2.2 ++ t.2)
    else (s2, r.2.2)
  else (r.2.1, r.2.2)

/-- `zremrangebyscore(failures, 0, now − window_size)`. -/
def pruneFailures (cfg : CBConfig) (now : ℚ) (l : List ℚ) : List ℚ :=
  l.filter (fun t => !(decide (0 ≤ t) && decide (t ≤ now - cfg.window_size)))

/-- `zadd(failures, {str(now): now})`. -/
def addFailure (l : List ℚ) (now : ℚ) : List ℚ :=
  if now ∈ l then l else l ++ [now]

/-- `record_failure` (lines 388-441); `excluded` is
`isinstance(error, config.excluded_exceptions)`. -/
def record_failure (cfg : CBConfig) (now : ℚ) (excluded : Bool) (s : CBState) :
    CBState × List (CBPhase × CBPhase) :=
  if excluded then (s, [])
  else
    let r := get_state cfg now s
    if r.1 = .closed then
      let failures2 := addFailure (pruneFailures cfg now r.2.1.failures) now
      let s2 := { r.2.1 with failures := failures2 }
      if cfg.failure_threshold ≤ failures2.length then
        let t := transitionTo now .opened s2
        (t.1, r.2.2 ++ t.2)
      else (s2, r.2.2)
    else if r.1 = .halfOpen then
      let t := transitionTo now .opened r.2.1
      (t.1, r.2.2 ++ t.2)
    else (r.2.1, r.2.2)

/-- The non-operator circuit-breaker API (everything except `force_open`,
`force_close`, `reset`). -/
inductive CBOp where
  | getState
  | canExecute
  | beforeExecute
  | recordSuccess
  | recordFailure (excluded : Bool)
  deriving Repr, DecidableEq

def applyCB (cfg : CBConfig) (op : CBOp) (now : ℚ) (s : CBState) :
    CBState × List (CBPhase × CBPhase) :=
  match op with
  | .getState => ((get_state cfg now s).2.1, (get_state cfg now s).2.2)
  | .canExecute => ((can_execute cfg now s).2.1, (can_execute cfg now s).2.2)
  | .beforeExecute => before_execute cfg now s
  | .recordSuccess => record_success cfg now s
  | .recordFailure e => record_failure cfg now e s

/-- `get_state` either is a pure read returning the stored phase, or
performs the lazy OPEN → HALF_OPEN transition. -/
theorem get_state_spec (cfg : CBConfig) (now : ℚ) (s : CBState) :
    get_state cfg now s = (cbPhase s, s, []) ∨
    s.stateStr = some .opened ∧
      (∃ t, s.openedAt = some t ∧ cfg.timeout ≤ now - t) ∧
      get_state cfg now s =
        (.halfOpen, { s with stateStr := some .halfOpen, successes := 0, halfOpenCalls := 0 },
         [(.opened, .halfOpen)]) := by
  unfold get_state cbPhase
  cases hs : s.stateStr with
  | none => exact Or.inl rfl
  | some st =>
    dsimp only
    by_cases ho : st = CBPhase.opened
    · subst ho
      rw [if_pos rfl]
      cases ht : s.openedAt with
      | none => exact Or.inl rfl
      | some t =>
        dsimp only
        by_cases htime : cfg.timeout ≤ now - t
        · rw [if_pos htime]
          refine Or.inr ⟨rfl, ⟨t, rfl, htime⟩, ?_⟩
          simp [transitionTo, hs, ht]
        · rw [if_neg htime]
          exact Or.inl rfl
    · rw [if_neg ho]
      exact Or.inl rfl

theorem cbPhase_some {s : CBState} {ph : CBPhase} (h : cbPhase s = ph)
    (hne : ph ≠ CBPhase.closed) : s.stateStr = some ph := by
  unfold cbPhase at h
  cases hs : s.stateStr with
  | none =>
    rw [hs] at h
    exact absurd h.symm hne
  | some st =>
    rw [hs] at h
    have hst : st = ph := h
    exact hst ▸ rfl

/-- C5: every state transition the breaker records (outside the operator
operations `force_open`, `force_close`, `reset`) is one of exactly four
edges, each with its trigger: CLOSED → OPEN only on a non-excluded
`record_failure` whose in-window failure count reaches `failure_threshold`;
OPEN → HALF_OPEN only when `now - opened_at ≥ timeout`; HALF_OPEN → CLOSED
only on `record_success` reaching `success_threshold`; HALF_OPEN → OPEN only
on a non-excluded `record_failure`.  In particular no CLOSED → HALF_OPEN and
no OPEN → CLOSED transition is ever recorded. -/
theorem C5_transitions (cfg : CBConfig) (op : CBOp) (now : ℚ) (s : CBState) :
    ∀ e ∈ (applyCB cfg op now s).2,
      (e = (CBPhase.closed, CBPhase.opened) ∧ op = .recordFailure false ∧
        cfg.failure_threshold ≤ (addFailure (pruneFailures cfg now s.failures) now).length) ∨
      (e = (CBPhase.opened, CBPhase.halfOpen) ∧
        ∃ t, s.openedAt = some t ∧ cfg.timeout ≤ now - t) ∨
      (e = (CBPhase.halfOpen, CBPhase.closed) ∧ op = .recordSuccess ∧
        ((cbPhase s = .halfOpen ∧ cfg.success_threshold ≤ s.successes + 1) ∨
         (cbPhase s = .opened ∧ cfg.success_threshold ≤ 1))) ∨
      (e = (CBPhase.halfOpen, CBPhase.opened) ∧ op = .recordFailure false) := by
  intro e he
  rcases get_state_spec cfg now s with hA | ⟨hopen, hcond, hB⟩
  · -- pure read: get_state changed nothing and recorded nothing
    cases op with
    | getState =>
      rw [applyCB, hA] at he
      exact absurd he (List.not_mem_nil e)
    | canExecute =>
      rw [applyCB] at he
      unfold can_execute at he
      rw [hA] at he
      dsimp only at he
      rcases hph : cbPhase s with _ | _ | _ <;> rw [hph] at he <;> dsimp only at he
      · exact absurd he (List.not_mem_nil e)
      · exact absurd he (List.not_mem_nil e)
      · split at he <;> exact absurd he (List.not_mem_nil e)
    | beforeExecute =>
      rw [applyCB] at he
      unfold before_execute at he
      rw [hA] at he
      dsimp only at he
      rcases hph : cbPhase s with _ | _ | _ <;> rw [hph] at he <;> dsimp only at he
      · exact absurd he (List.not_mem_nil e)
      · exact absurd he (List.not_mem_nil e)
      · split at he <;> exact absurd he (List.not_mem_nil e)
    | recordSuccess =>
      rw [applyCB] at he
      unfold record_success at he
      rw [hA] at he
      dsimp only at he
      by_cases hph : cbPhase s = CBPhase.halfOpen
      · rw [if_pos hph] at he
        have hss : s.stateStr = some CBPhase.halfOpen := cbPhase_some hph (by decide)
        by_cases hS : cfg.success_threshold ≤ s.successes + 1
        · rw [if_pos hS] at he
          simp only [transitionTo, hss, List.nil_append] at he
          rw [List.mem_singleton] at he
          subst he
          exact Or.inr (Or.inr (Or.inl ⟨rfl, rfl, Or.inl ⟨hph, hS⟩⟩))
        · rw [if_neg hS] at he
          exact absurd he (List.not_mem_nil e)
      · rw [if_neg hph] at he
        exact absurd he (List.not_mem_nil e)
    | recordFailure excl =>
      rw [applyCB] at he
      unfold record_failure at he
      cases excl with
      | true =>
        rw [if_pos rfl] at he
        exact absurd he (List.not_mem_nil e)
      | false =>
        rw [if_neg Bool.false_ne_true] at he
        rw [hA] at he
        dsimp only at he
        by_cases hcl : cbPhase s = CBPhase.closed
        · rw [if_pos hcl] at he
          by_cases hF : cfg.failure_threshold ≤
              (addFailure (pruneFailures cfg now s.failures) now).length
          · rw [if_pos hF] at he
            cases hss : s.stateStr with
            | none =>
              simp only [transitionTo, hss, List.nil_append] at he
              exact absurd he (List.not_mem_nil e)
            | some st =>
              have hstc : st = CBPhase.closed := by
                unfold cbPhase at hcl
                rw [hss] at hcl
                exact hcl
              subst hstc
              simp only [transitionTo, hss, List.nil_append] at he
              rw [List.mem_singleton] at he
              subst he
              exact Or.inl ⟨rfl, rfl, hF⟩
          · rw [if_neg hF] at he
            exact absurd he (List.not_mem_nil e)
        · rw [if_neg hcl] at he
          by_cases hho : cbPhase s = CBPhase.halfOpen
          · rw [if_pos hho] at he
            have hss : s.stateStr = some CBPhase.halfOpen := cbPhase_some hho (by decide)
            simp only [transitionTo, hss, List.nil_append] at he
            rw [List.mem_singleton] at he
            subst he
            exact Or.inr (Or.inr (Or.inr ⟨rfl, rfl⟩))
          · rw [if_neg hho] at he
            exact absurd he (List.not_mem_nil e)
  · -- lazy OPEN → HALF_OPEN inside get_state, possibly followed by an edge
    have hph : cbPhase s = CBPhase.opened := by
      unfold cbPhase
      rw [hopen]
      rfl
    cases op with
    | getState =>
      rw [applyCB, hB] at he
      rw [List.mem_singleton] at he
      subst he
      exact Or.inr (Or.inl ⟨rfl, hcond⟩)
    | canExecute =>
      rw [applyCB] at he
      unfold can_execute at he
      rw [hB] at he
      dsimp only at he
      split at he <;> dsimp only at he <;>
        (rw [List.mem_singleton] at he; subst he; exact Or.inr (Or.inl ⟨rfl, hcond⟩))
    | beforeExecute =>
      rw [applyCB] at he
      unfold before_execute at he
      rw [hB] at he
      dsimp only at he
      split at he <;> dsimp only at he <;>
        (rw [List.mem_singleton] at he; subst he; exact Or.inr (Or.inl ⟨rfl, hcond⟩))
    | recordSuccess =>
      rw [applyCB] at he
      unfold record_success at he
      rw [hB] at he
      dsimp only at he
      rw [if_pos rfl] at he
      by_cases hS : cfg.success_threshold ≤ 0 + 1
      · rw [if_pos hS] at he
        simp only [transitionTo] at he
        simp only [List.mem_append, List.mem_singleton] at he
        rcases he with he | he
        · subst he
          exact Or.inr (Or.inl ⟨rfl, hcond⟩)
        · subst he
          exact Or.inr (Or.inr (Or.inl ⟨rfl, rfl, Or.inr ⟨hph, by omega⟩⟩))
      · rw [if_neg hS] at he
        rw [List.mem_singleton] at he
        subst he
        exact Or.inr (Or.inl ⟨rfl, hcond⟩)
    | recordFailure excl =>
      rw [applyCB] at he
      unfold record_failure at he
      cases excl with
      | true =>
        rw [if_pos rfl] at he
        exact absurd he (List.not_mem_nil e)
      | false =>
        rw [if_neg Bool.false_ne_true] at he
        rw [hB] at he
        dsimp only at he
        rw [if_neg (by decide), if_pos rfl] at he
        simp only [transitionTo] at he
        simp only [List.mem_append, List.mem_singleton] at he
        rcases he with he | he
        · subst he
          exact Or.inr (Or.inl ⟨rfl, hcond⟩)
        · subst he
          exact Or.inr (Or.inr (Or.inr ⟨rfl, rfl⟩))


def c5Cfg : CBConfig :=
  { failure_threshold := 1
    success_threshold := 1
    timeout := 60
    half_open_max_calls := 3
    window_size := 60 }

def c5S : CBState :=
  { stateStr := some .closed
    failures := []
    successes := 0
    openedAt := none
    halfOpenCalls := 0 }

/-- Witness: a CLOSED breaker with `failure_threshold = 1` records exactly
the CLOSED → OPEN edge on one non-excluded failure, and the theorem
classifies it. -/
theorem C5_transitions_witness :
    (CBPhase.closed, CBPhase.opened) ∈ (applyCB c5Cfg (.recordFailure false) 0 c5S).2 ∧
    (((CBPhase.closed, CBPhase.opened) = (CBPhase.closed, CBPhase.opened) ∧
        CBOp.recordFailure false = .recordFailure false ∧
        c5Cfg.failure_threshold ≤ (addFailure (pruneFailures c5Cfg 0 c5S.failures) 0).length) ∨
      ((CBPhase.closed, CBPhase.opened) = (CBPhase.opened, CBPhase.halfOpen) ∧
        ∃ t, c5S.openedAt = some t ∧ c5Cfg.timeout ≤ 0 - t) ∨
      ((CBPhase.closed, CBPhase.opened) = (CBPhase.halfOpen, CBPhase.closed) ∧
        CBOp.recordFailure false = .recordSuccess ∧
        ((cbPhase c5S = .halfOpen ∧ c5Cfg.success_threshold ≤ c5S.successes + 1) ∨
         (cbPhase c5S = .opened ∧ c5Cfg.success_threshold ≤ 1))) ∨
      ((CBPhase.closed, CBPhase.opened) = (CBPhase.halfOpen, CBPhase.opened) ∧
        CBOp.recordFailure false = .recordFailure false)) :=
  ⟨by decide,
   C5_transitions c5Cfg (.recordFailure false) 0 c5S (CBPhase.closed, CBPhase.opened) (by decide)⟩

/-! ## Webhooks and sync fan-out (`webhook-handlers.py`, `sync-engine.py`)

`ChannelConn` is a `channel_connections` row.  The webhook coordination
store is the list of already-marked idempotency keys (the Redis
`webhook:` keys), and every queued background task is recorded in
`dispatched`; the handler writes no database rows itself. -/

structure ChannelConn where
  id : ℕ
  property_id : ℕ
  channel_type : String
  channel_property_id : String
  status : String
  sync_enabled : Bool
  sync_availability : Bool
  sync_direction : String
  deriving Repr, DecidableEq

/-- `generate_idempotency_key` (sync-engine.py lines 1482-1496):
sha256 of the colon-join of the non-empty parts, truncated to 32 hex
characters.  `filter(None, parts)` keeps exactly the non-empty strings. -/
structure AirbnbPayload where
  event_type : String
  event_id : String
  reservation_id : String
  booking_id : String
  updated_at : String
  listing_id : String
  deriving Repr, DecidableEq

def generate_idempotency_key (channel_type : String) (p : AirbnbPayload) : String :=
  (sha256Hex (String.intercalate ":"
    (([channel_type, p.reservation_id, p.booking_id, p.updated_at,
       p.event_id]).filter (fun s => !(s == ""))))).take 32

inductive WebhookResp where
  | httpError (code : ℕ)
  | body (status : String) (event_id : String)
  deriving Repr, DecidableEq

structure WebhookSt where
  processed : List String
  dispatched : List (String × String)
  deriving Repr, DecidableEq

/-- `airbnb_webhook` (webhook-handlers.py lines 155-292).  `sig` is
`none` when the header is absent, else `some` of the HMAC check result;
`pOk` is whether the body parses as JSON.  The `already_processed` branch
returns before any task dispatch or `mark_as_processed`; the `skipped`
branch (no connection) also returns without marking. -/
def airbnb_webhook (conns : List ChannelConn) (sig : Option Bool) (pOk : Bool)
    (p : AirbnbPayload) (st : WebhookSt) : WebhookResp × WebhookSt :=
  match sig with
  | some false => (.httpError 401, st)
  | _ =>
    if pOk = false then (.httpError 400, st)
    else
      let key := generate_idempotency_key "airbnb" p
      if key ∈ st.processed then (.body "already_processed" p.event_id, st)
      else if p.event_type == "reservation.created" || p.event_type == "reservation.accepted" then
        match conns.find? (fun c => c.channel_type == "airbnb" &&
            c.channel_property_id == p.listing_id && c.status == "active") with
        | none => (.body "skipped" "", st)
        | some c =>
          (.body "accepted" p.event_id,
           { processed := st.processed ++ [key]
             dispatched := st.dispatched ++ [("import:" ++ toString c.id, key)] })
      else if p.event_type == "reservation.cancelled" ||
          p.event_type == "reservation.cancelled_by_host" ||
          p.event_type == "reservation.cancelled_by_guest" then
        (.body "accepted" p.event_id,
         { processed := st.processed ++ [key]
           dispatched := st.dispatched ++ [("cancel", key)] })
      else if p.event_type == "reservation.updated" then
        (.body "accepted" p.event_id,
         { processed := st.processed ++ [key]
           dispatched := st.dispatched ++ [("update", key)] })
      else
        (.body "accepted" p.event_id,
         { processed := st.processed ++ [key]
           dispatched := st.dispatched })

/-- C6: a webhook whose idempotency key is already stored gets
`already_processed` and changes nothing (no dispatch, no key written);
and posting the same `reservation.created` body twice from a fresh state
yields `accepted` with exactly one import dispatched and the key marked,
then `already_processed` with the state left exactly as after the first
post. -/
theorem C6_webhook_idempotent (conns : List ChannelConn) (sig : Option Bool)
    (pOk : Bool) (p : AirbnbPayload) (st : WebhookSt) (c : ChannelConn)
    (hsig : sig ≠ some false) (hparse : pOk = true)
    (hevt : p.event_type = "reservation.created")
    (hfind : conns.find? (fun x => x.channel_type == "airbnb" &&
        x.channel_property_id == p.listing_id && x.status == "active") = some c)
    (hnew : generate_idempotency_key "airbnb" p ∉ st.processed) :
    (∀ st2 : WebhookSt, generate_idempotency_key "airbnb" p ∈ st2.processed →
        airbnb_webhook conns sig pOk p st2 = (.body "already_processed" p.event_id, st2)) ∧
    airbnb_webhook conns sig pOk p st =
      (.body "accepted" p.event_id,
       { processed := st.processed ++ [generate_idempotency_key "airbnb" p]
         dispatched := st.dispatched ++
           [("import:" ++ toString c.id, generate_idempotency_key "airbnb" p)] }) ∧
    (airbnb_webhook conns sig pOk p (airbnb_webhook conns sig pOk p st).2).1 =
      .body "already_processed" p.event_id ∧
    (airbnb_webhook conns sig pOk p (airbnb_webhook conns sig pOk p st).2).2 =
      (airbnb_webhook conns sig pOk p st).2 := by
  subst hparse
  have hfirst : ∀ st3 : WebhookSt,
      generate_idempotency_key "airbnb" p ∉ st3.processed →
      airbnb_webhook conns sig true p st3 =
        (.body "accepted" p.event_id,
         { processed := st3.processed ++ [generate_idempotency_key "airbnb" p]
           dispatched := st3.dispatched ++
             [("import:" ++ toString c.id, generate_idempotency_key "airbnb" p)] }) := by
    intro st3 hn3
    unfold airbnb_webhook
    match sig, hsig with
    | none, _ =>
      dsimp only
      rw [if_neg (by decide), if_neg hn3, if_pos (by rw [hevt]; decide), hfind]
    | some true, _ =>
      dsimp only
      rw [if_neg (by decide), if_neg hn3, if_pos (by rw [hevt]; decide), hfind]
  have hdup : ∀ st2 : WebhookSt, generate_idempotency_key "airbnb" p ∈ st2.processed →
      airbnb_webhook conns sig true p st2 = (.body "already_processed" p.event_id, st2) := by
    intro st2 hmem
    unfold airbnb_webhook
    match sig, hsig with
    | none, _ =>
      dsimp only
      rw [if_neg (by decide), if_pos hmem]
    | some true, _ =>
      dsimp only
      rw [if_neg (by decide), if_pos hmem]
  have h1 := hfirst st hnew
  have hmem2 : generate_idempotency_key "airbnb" p ∈
      (airbnb_webhook conns sig true p st).2.processed := by
    rw [h1]
    exact List.mem_append_right _ (List.mem_singleton.mpr rfl)
  have h2 := hdup (airbnb_webhook conns sig true p st).2 hmem2
  exact ⟨hdup, h1, by rw [h2], by rw [h2]⟩

def c6Conn : ChannelConn :=
  { id := 5
    property_id := 7
    channel_type := "airbnb"
    channel_property_id := "L900"
    status := "active"
    sync_enabled := true
    sync_availability := true
    sync_direction := "bidirectional" }

def c6Payload : AirbnbPayload :=
  { event_type := "reservation.created"
    event_id := "evt-1"
    reservation_id := "R1"
    booking_id := ""
    updated_at := "2025-06-01T00:00:00"
    listing_id := "L900" }

def c6Key : String := generate_idempotency_key "airbnb" c6Payload

/-- Witness: the double post of a concrete `reservation.created` body
against a single connected listing, plus the frame property at a state
that already holds the key. -/
theorem C6_webhook_idempotent_witness :
    airbnb_webhook [c6Conn] (some true) true c6Payload
        { processed := [c6Key], dispatched := [] } =
      (.body "already_processed" c6Payload.event_id,
       { processed := [c6Key], dispatched := [] }) ∧
    airbnb_webhook [c6Conn] (some true) true c6Payload { processed := [], dispatched := [] } =
      (.body "accepted" c6Payload.event_id,
       { processed := [c6Key]
         dispatched := [("import:" ++ toString c6Conn.id, c6Key)] }) ∧
    (airbnb_webhook [c6Conn] (some true) true c6Payload
        (airbnb_webhook [c6Conn] (some true) true c6Payload
          { processed := [], dispatched := [] }).2).1 =
      .body "already_processed" c6Payload.event_id := by
  have h := C6_webhook_idempotent [c6Conn] (some true) true c6Payload
    { processed := [], dispatched := [] } c6Conn
    (by decide) rfl rfl rfl (List.not_mem_nil _)
  refine ⟨h.1 { processed := [c6Key], dispatched := [] }
      (List.mem_singleton.mpr rfl), ?_, h.2.2.1⟩
  simpa using h.2.1

/-- The connection filter of `_handle_booking_confirmed_event`
(sync-engine.py lines 287-296): note that it includes
`sync_enabled == True`. -/
def connMatches (pid : ℕ) (c : ChannelConn) : Bool :=
  c.property_id == pid && c.sync_enabled && c.status == "active" &&
    c.sync_availability &&
    (c.sync_direction == "bidirectional" || c.sync_direction == "outbound_only")

structure FanoutResults where
  success : List String
  skipped : List String
  tasks : List (ℕ × String × String × Bool)
  deriving Repr, DecidableEq

/-- Loop body of `_handle_booking_confirmed_event` (lines 304-327): the
source-channel test is `if source_channel and conn.channel_type ==
source_channel` (Python truthiness on the source string), else an
`update_channel_availability(conn.id, check_in, check_out, False)` task
is queued. -/
def fanoutStep (source ci co : String) (acc : FanoutResults) (c : ChannelConn) :
    FanoutResults :=
  if !(source == "") && c.channel_type == source then
    { acc with skipped := acc.skipped ++ [c.channel_type] }
  else
    { acc with
        success := acc.success ++ [c.channel_type]
        tasks := acc.tasks ++ [(c.id, ci, co, false)] }

def handle_booking_confirmed_event (conns : List ChannelConn) (pid : ℕ)
    (source ci co : String) : FanoutResults :=
  (conns.filter (connMatches pid)).foldl (fanoutStep source ci co)
    { success := [], skipped := [], tasks := [] }

/-- The fan-out target set as the claim words it: active, sync_availability,
direction bidirectional or outbound-only — without `sync_enabled` — minus
the source channel. -/
def spec_fanout_targets (conns : List ChannelConn) (pid : ℕ) (source : String) :
    List ChannelConn :=
  (conns.filter (fun c => c.property_id == pid && c.status == "active" &&
      c.sync_availability &&
      (c.sync_direction == "bidirectional" || c.sync_direction == "outbound_only"))).filter
    (fun c => !(c.channel_type == source))

theorem fanout_foldl (source ci co : String) (l : List ChannelConn)
    (acc : FanoutResults) :
    (l.foldl (fanoutStep source ci co) acc).tasks =
      acc.tasks ++ (l.filter
        (fun c => !(!(source == "") && c.channel_type == source))).map
        (fun c => (c.id, ci, co, false)) := by
  induction l generalizing acc with
  | nil => simp
  | cons c t ih =>
    cases hb : (!(source == "") && c.channel_type == source) with
    | true =>
      rw [List.foldl_cons, ih]
      unfold fanoutStep
      rw [if_pos hb]
      dsimp only
      have hp : (!(!(source == "") && c.channel_type == source)) = false := by
        rw [hb]
        rfl
      rw [List.filter_cons]
      simp [hp]
    | false =>
      rw [List.foldl_cons, ih]
      unfold fanoutStep
      rw [if_neg (by simp [hb])]
      dsimp only
      have hp : (!(!(source == "") && c.channel_type == source)) = true := by
        rw [hb]
        rfl
      rw [List.filter_cons]
      simp [hp]

/-- A connection that is active, has `sync_availability`, is bidirectional,
is not the source, but has `sync_enabled = false`. -/
def c8Disabled : ChannelConn :=
  { id := 9
    property_id := 7
    channel_type := "booking_com"
    channel_property_id := "BC1"
    status := "active"
    sync_enabled := false
    sync_availability := true
    sync_direction := "bidirectional" }

/-- C8 as claimed is false: the code additionally filters on
`sync_enabled == True`, so a disabled-sync connection that meets every
condition the claim lists gets no availability task, while the claim
says the task set is exactly the listed set. -/
theorem C8_counterexample :
    (handle_booking_confirmed_event [c8Disabled] 7 "airbnb"
      "2025-06-01" "2025-06-05").tasks = [] ∧
    spec_fanout_targets [c8Disabled] 7 "airbnb" = [c8Disabled] := by
  decide

/-- C8 (amended): the enqueued `update_channel_availability` tasks are
exactly the connections matching property, `sync_enabled`, active,
`sync_availability` and outbound-capable direction, minus the source
channel (skipped only when the source string is non-empty); in
particular a non-empty source channel never receives a task. -/
theorem C8_fanout (conns : List ChannelConn) (pid : ℕ) (source ci co : String) :
    (handle_booking_confirmed_event conns pid source ci co).tasks =
      ((conns.filter (connMatches pid)).filter
          (fun c => !(!(source == "") && c.channel_type == source))).map
        (fun c => (c.id, ci, co, false)) ∧
    ∀ c ∈ (conns.filter (connMatches pid)).filter
        (fun c => !(!(source == "") && c.channel_type == source)),
      source ≠ "" → c.channel_type ≠ source := by
  constructor
  · unfold handle_booking_confirmed_event
    rw [fanout_foldl]
    simp
  · intro c hc hs heq
    have h2 := (List.mem_filter.mp hc).2
    rw [heq] at h2
    simp at h2
    exact hs h2

def c8Conns : List ChannelConn :=
  [{ c6Conn with id := 1 },
   { c8Disabled with id := 2, sync_enabled := true },
   { c8Disabled with id := 3, sync_enabled := true, channel_type := "expedia" },
   { c8Disabled with id := 4, sync_enabled := true, channel_type := "fewo_direkt" },
   { c8Disabled with id := 5, sync_enabled := true, channel_type := "google" }]

/-- Witness: a booking imported from Airbnb on a property with five
enabled connections fans out to the four non-Airbnb channels only. -/
theorem C8_fanout_witness :
    (handle_booking_confirmed_event c8Conns 7 "airbnb" "2025-06-01" "2025-06-05").tasks =
      ((c8Conns.filter (connMatches 7)).filter
          (fun c => !(!(("airbnb" : String) == "") && c.channel_type == "airbnb"))).map
        (fun c => (c.id, "2025-06-01", "2025-06-05", false)) ∧
    (handle_booking_confirmed_event c8Conns 7 "airbnb" "2025-06-01" "2025-06-05").tasks.length = 4 ∧
    ({ c8Disabled with id := 2, sync_enabled := true } : ChannelConn).channel_type ≠ "airbnb" :=
  ⟨(C8_fanout c8Conns 7 "airbnb" "2025-06-01" "2025-06-05").1,
   by decide,
   (C8_fanout c8Conns 7 "airbnb" "2025-06-01" "2025-06-05").2
     { c8Disabled with id := 2, sync_enabled := true } (by decide) (by decide)⟩

/-- The idempotency key built by `_poll_single_channel` (sync-engine.py
line 1162): the plain colon-joined string, not a hash. -/
def pollIdempotencyKey (channel_type channel_booking_id updated_at : String) :
    String :=
  channel_type ++ ":" ++ channel_booking_id ++ ":" ++ updated_at

/-- The key the claim describes: sha256 of the plain concatenation,
truncated to 32 hex characters. -/
def specPollKey (channel_type channel_booking_id updated_at : String) : String :=
  (sha256Hex (channel_type ++ channel_booking_id ++ updated_at)).take 32

structure PollAcc where
  tasks : List (String × ℕ × String)
  imported : ℕ
  deriving Repr, DecidableEq

/-- Import-queueing loop of `_poll_single_channel` (lines 1159-1169); a
booking is its `channel_booking_id` paired with `updated_at` (already
defaulted to the empty string). -/
def pollImportStep (channel_type : String) (connection_id : ℕ) (acc : PollAcc)
    (b : String × String) : PollAcc :=
  { tasks := acc.tasks ++
      [(channel_type, connection_id, pollIdempotencyKey channel_type b.1 b.2)]
    imported := acc.imported + 1 }

def poll_queue_imports (channel_type : String) (connection_id : ℕ)
    (bookings : List (String × String)) : PollAcc :=
  bookings.foldl (pollImportStep channel_type connection_id)
    { tasks := [], imported := 0 }

set_option maxRecDepth 40000 in
/-- C9 as claimed is false: the poll loop's key is the plain colon-joined
string, which differs from the 32-hex-character sha256 key the claim
describes (both for the unseparated and for the colon-joined preimage). -/
theorem C9_counterexample :
    pollIdempotencyKey "airbnb" "B177" "2025-06-02T10:00:00" ≠
      specPollKey "airbnb" "B177" "2025-06-02T10:00:00" ∧
    pollIdempotencyKey "airbnb" "B177" "2025-06-02T10:00:00" ≠
      (sha256Hex (pollIdempotencyKey "airbnb" "B177" "2025-06-02T10:00:00")).take 32 := by
  constructor
  · decide
  · decide

/-- C9 (amended): each polled booking is enqueued for import with
idempotency key `channel_type:channel_booking_id:updated_at` (plain
string, `updated_at` defaulting to empty), one task per booking in
order. -/
theorem C9_poll_keys (channel_type : String) (connection_id : ℕ)
    (bookings : List (String × String)) :
    (poll_queue_imports channel_type connection_id bookings).tasks =
      bookings.map (fun b =>
        (channel_type, connection_id,
         channel_type ++ ":" ++ b.1 ++ ":" ++ b.2)) ∧
    (poll_queue_imports channel_type connection_id bookings).imported =
      bookings.length := by
  have hfold : ∀ (l : List (String × String)) (acc : PollAcc),
      (l.foldl (pollImportStep channel_type connection_id) acc).tasks =
        acc.tasks ++ l.map (fun b =>
          (channel_type, connection_id,
           channel_type ++ ":" ++ b.1 ++ ":" ++ b.2)) ∧
      (l.foldl (pollImportStep channel_type connection_id) acc).imported =
        acc.imported + l.length := by
    intro l
    induction l with
    | nil => intro acc; simp
    | cons b t ih =>
      intro acc
      rw [List.foldl_cons]
      rcases ih (pollImportStep channel_type connection_id acc b) with ⟨h1, h2⟩
      refine ⟨?_, ?_⟩
      · rw [h1]
        simp [pollImportStep, pollIdempotencyKey]
      · rw [h2]
        simp [pollImportStep]
        omega
  have h := hfold bookings { tasks := [], imported := 0 }
  unfold poll_queue_imports
  simpa using h

end PMS